import Mathlib

/-!
Shallow embedding of the Flip 7 multiplayer game server: the card/deck model
(`createDeck`, `shuffleDeck` modelled as a permutation-valued parameter), the
scoring helpers, the turn engine (`processCard`, `advanceTurn`, `endRound`,
`startNewRound`) and the per-connection message handlers of the room server.
JavaScript in-place mutation becomes explicit state passing; fallible code
(array accesses that would throw, drawing from two empty piles) returns
`Option`.
-/

namespace Flip7

inductive CardType
  | number
  | freeze
  | flip_three
  | second_chance
  | modifier
  | multiplier
deriving DecidableEq

structure Card where
  id : String
  type : CardType
  value : Int
  label : String
deriving DecidableEq

inductive Phase
  | lobby
  | playing
  | round_end
  | game_over
deriving DecidableEq

structure Player where
  id : String
  name : String
  cards : List Card
  score : Int
  roundScore : Int
  busted : Bool
  stayed : Bool
  hasSecondChance : Bool
  connected : Bool
deriving DecidableEq

structure GameState where
  phase : Phase
  players : List Player
  currentPlayerIndex : Nat
  deck : List Card
  discard : List Card
  roundNumber : Nat
  hostId : String
  targetScore : Int
  lastAction : Option String
  winner : Option String
deriving DecidableEq

def createInitialState (hostId : String) : GameState :=
  { phase := Phase.lobby
    players := []
    currentPlayerIndex := 0
    deck := []
    discard := []
    roundNumber := 0
    hostId := hostId
    targetScore := 200
    lastAction := none
    winner := none }

/-- `makeCard` from deck.ts; the id counter becomes the position index. -/
def makeCard (n : Nat) (type : CardType) (value : Int) (label : String) : Card :=
  { id := "card-" ++ toString n, type := type, value := value, label := label }

/-- Number-card entries of `createDeck`: value N contributes N copies, value 0 one copy. -/
def numberEntries : List (CardType × Int × String) :=
  ((List.range 13).map (fun n =>
    List.replicate (if n = 0 then 1 else n) (CardType.number, (n : Int), toString n))).flatten

/-- Action-card entries of `createDeck`: three iterations pushing freeze, flip three, second chance. -/
def actionEntries : List (CardType × Int × String) :=
  ((List.range 3).map (fun _ =>
    [(CardType.freeze, (0 : Int), "Freeze!"),
     (CardType.flip_three, (0 : Int), "Flip 3!"),
     (CardType.second_chance, (0 : Int), "2nd Chance")])).flatten

def modifierEntries : List (CardType × Int × String) :=
  [(CardType.modifier, 2, "+2"), (CardType.modifier, 4, "+4"), (CardType.modifier, 6, "+6"),
   (CardType.modifier, 8, "+8"), (CardType.modifier, 8, "+8"), (CardType.modifier, 10, "+10")]

def createDeck : List Card :=
  ((numberEntries ++ actionEntries ++ modifierEntries
      ++ [(CardType.multiplier, 2, "x2")]).enum).map
    (fun (e : Nat × CardType × Int × String) => makeCard e.1 e.2.1 e.2.2.1 e.2.2.2)

def calculateRoundScore (player : Player) : Int :=
  let numberCards := player.cards.filter (fun c => c.type == CardType.number)
  let modifiers := player.cards.filter (fun c => c.type == CardType.modifier)
  let hasMultiplier := player.cards.any (fun c => c.type == CardType.multiplier)
  let numberSum := numberCards.foldl (fun sum c => sum + c.value) 0
  let numberSum := if hasMultiplier then numberSum * 2 else numberSum
  let modifierSum := modifiers.foldl (fun sum c => sum + c.value) 0
  let uniqueNumbers := (numberCards.map (fun c => c.value)).dedup
  let flip7Bonus : Int := if uniqueNumbers.length ≥ 7 then 15 else 0
  numberSum + modifierSum + flip7Bonus

def getUniqueNumberCount (player : Player) : Nat :=
  ((player.cards.filter (fun c => c.type == CardType.number)).map (fun c => c.value)).dedup.length

def hasNumberDuplicate (player : Player) (card : Card) : Bool :=
  if card.type != CardType.number then false
  else player.cards.any (fun c => c.type == CardType.number && c.value == card.value)

def getNextActivePlayerIndex (state : GameState) (fromIndex : Nat) : Option Nat :=
  let count := state.players.length
  (List.range' 1 count).findSome? (fun i =>
    let idx := (fromIndex + i) % count
    match state.players.get? idx with
    | some p => if !p.busted && !p.stayed then some idx else none
    | none => none)

def isRoundOver (state : GameState) : Bool :=
  state.players.all (fun p => p.busted || p.stayed)

/-- `drawCard`: pop the end of the draw pile, reshuffling the discard pile in first
when the draw pile is empty; `none` when both piles are empty (the JS would throw). -/
def drawCard (shuffle : List Card → List Card) (state : GameState) : Option (Card × GameState) :=
  let state :=
    if state.deck.length = 0 then
      { state with deck := shuffle state.discard, discard := [] }
    else state
  match state.deck.getLast? with
  | some card => some (card, { state with deck := state.deck.dropLast })
  | none => none

structure ProcessResult where
  busted : Bool
  flip7 : Bool
  savedBySecondChance : Bool
deriving DecidableEq

/-- `processCard`: resolve one drawn card for the player at `playerIndex`;
`none` when the index is out of range (the JS would throw). -/
def processCard (state : GameState) (playerIndex : Nat) (card : Card) (fromFlipThree : Bool) :
    Option (GameState × ProcessResult) :=
  match state.players.get? playerIndex with
  | none => none
  | some player =>
    if card.type == CardType.number then
      if hasNumberDuplicate player card then
        if player.hasSecondChance then
          let scCards := player.cards.filter (fun c => c.type == CardType.second_chance)
          let player := { player with
            hasSecondChance := false
            cards := player.cards.filter (fun c => c.type != CardType.second_chance)
            stayed := if !fromFlipThree then true else player.stayed }
          let player := { player with roundScore := calculateRoundScore player }
          some ({ state with
                    players := state.players.set playerIndex player
                    discard := state.discard ++ [card] ++ scCards
                    lastAction := some (player.name ++ " drew a duplicate " ++ toString card.value
                      ++ " but Second Chance saved them!") },
                ⟨false, false, true⟩)
        else
          let player := { player with
            busted := true
            roundScore := 0
            cards := player.cards ++ [card] }
          some ({ state with
                    players := state.players.set playerIndex player
                    lastAction := some (player.name ++ " drew a duplicate " ++ toString card.value
                      ++ " and busted!") },
                ⟨true, false, false⟩)
      else
        let player := { player with cards := player.cards ++ [card] }
        let player := { player with roundScore := calculateRoundScore player }
        if getUniqueNumberCount player ≥ 7 then
          let player := { player with stayed := true }
          some ({ state with
                    players := state.players.set playerIndex player
                    lastAction := some (player.name ++ " achieved FLIP 7! Round ends!") },
                ⟨false, true, false⟩)
        else
          some ({ state with
                    players := state.players.set playerIndex player
                    lastAction := some (player.name ++ " drew a " ++ toString card.value) },
                ⟨false, false, false⟩)
    else if card.type == CardType.second_chance then
      let player := { player with cards := player.cards ++ [card] }
      if !player.hasSecondChance then
        let player := { player with hasSecondChance := true }
        some ({ state with
                  players := state.players.set playerIndex player
                  lastAction := some (player.name ++ " drew Second Chance!") },
              ⟨false, false, false⟩)
      else
        some ({ state with
                  players := state.players.set playerIndex player
                  lastAction := some (player.name ++ " drew another Second Chance (already has one)") },
              ⟨false, false, false⟩)
    else
      let player := { player with cards := player.cards ++ [card] }
      let player := { player with roundScore := calculateRoundScore player }
      some ({ state with
                players := state.players.set playerIndex player
                lastAction := some (player.name ++ " drew " ++ card.label) },
            ⟨false, false, false⟩)

/-- The per-player finalization step of `endRound`. -/
def settleScore (player : Player) : Player :=
  if !player.busted then
    let rs := calculateRoundScore player
    { player with roundScore := rs, score := player.score + rs }
  else player

/-- `Math.max` over a spread list; the call site only uses it on nonempty lists. -/
def listMaxInt : List Int → Int
  | [] => 0
  | x :: xs => xs.foldl max x

def endRound (state : GameState) : GameState :=
  let players := state.players.map settleScore
  let state := { state with players := players }
  let playersOver200 := players.filter (fun p => decide (p.score ≥ state.targetScore))
  if playersOver200.length > 0 then
    let maxScore := listMaxInt (players.map (fun p => p.score))
    let winners := players.filter (fun p => p.score == maxScore)
    match winners with
    | [w] =>
      { state with
        winner := some w.id
        phase := Phase.game_over
        lastAction := some (w.name ++ " wins with " ++ toString w.score ++ " points!") }
    | _ =>
      { state with
        phase := Phase.round_end
        lastAction := some ("Round " ++ toString state.roundNumber ++ " complete!") }
  else
    { state with
      phase := Phase.round_end
      lastAction := some ("Round " ++ toString state.roundNumber ++ " complete!") }

def advanceTurn (state : GameState) : GameState :=
  if isRoundOver state then endRound state
  else
    match getNextActivePlayerIndex state state.currentPlayerIndex with
    | none => endRound state
    | some next => { state with currentPlayerIndex := next }

def startNewRound (shuffle : List Card → List Card) (state : GameState) : GameState :=
  let state := { state with roundNumber := state.roundNumber + 1, phase := Phase.playing }
  let state :=
    if state.roundNumber = 1 then
      { state with deck := shuffle createDeck, discard := [] }
    else state
  let state := { state with
    discard := state.discard ++ (state.players.map (fun (p : Player) => p.cards)).flatten
    players := state.players.map (fun (player : Player) =>
      { player with
        cards := []
        roundScore := 0
        busted := false
        stayed := false
        hasSecondChance := false }) }
  { state with
    currentPlayerIndex := 0
    lastAction := some ("Round " ++ toString state.roundNumber ++ " started!") }

/-- Outbound messages of the server (the full-state snapshot and the transient error). -/
inductive ServerMessage
  | stateMsg (state : GameState)
  | errorMsg (message : String)
deriving DecidableEq

/-- Outcome of one handler invocation: the new authoritative state, the messages
sent back to the originating connection, and whether a full-state broadcast to the
whole room was issued. -/
structure StepResult where
  state : GameState
  toSender : List ServerMessage
  broadcast : Bool
deriving DecidableEq

/-- In-place mutation of the first array element matching `pred` (the JS
`players.find(...)` followed by field assignments). -/
def updateFirst (pred : Player → Bool) (f : Player → Player) : List Player → List Player
  | [] => []
  | p :: ps => if pred p then f p :: ps else p :: updateFirst pred f ps

def handleJoin (connId : String) (name : String) (state : GameState) : StepResult :=
  if state.phase ≠ Phase.lobby then
    if state.players.any (fun p => p.name == name) then
      ⟨{ state with
           players := updateFirst (fun p => p.name == name)
             (fun p => { p with id := connId, connected := true }) state.players },
       [], true⟩
    else ⟨state, [ServerMessage.errorMsg "Game already in progress"], false⟩
  else if state.players.any (fun p => p.name == name) then
    ⟨state, [ServerMessage.errorMsg "Name already taken"], false⟩
  else
    let state := if state.players.length = 0 then { state with hostId := connId } else state
    ⟨{ state with
         players := state.players ++
           [{ id := connId, name := name, cards := [], score := 0, roundScore := 0,
              busted := false, stayed := false, hasSecondChance := false, connected := true }]
         lastAction := some (name ++ " joined the game!") },
     [], true⟩

def handleStartGame (shuffle : List Card → List Card) (connId : String) (state : GameState) :
    StepResult :=
  if connId ≠ state.hostId then
    ⟨state, [ServerMessage.errorMsg "Only the host can start"], false⟩
  else if state.players.length < 2 then
    ⟨state, [ServerMessage.errorMsg "Need at least 2 players"], false⟩
  else
    ⟨startNewRound shuffle state, [], true⟩

/-- The forced-stay sweep run when a player achieves Flip 7: every player who is
neither busted nor stayed is marked stayed at their recomputed round score. -/
def stayAllActive (state : GameState) : GameState :=
  { state with
    players := state.players.map (fun p =>
      if !p.busted && !p.stayed then
        { p with stayed := true, roundScore := calculateRoundScore p }
      else p) }

def handleHit (shuffle : List Card → List Card) (connId : String) (state : GameState) :
    Option StepResult :=
  if state.phase ≠ Phase.playing then some ⟨state, [], false⟩
  else
    match state.players.get? state.currentPlayerIndex with
    | none => none
    | some currentPlayer =>
      if connId ≠ currentPlayer.id then
        some ⟨state, [ServerMessage.errorMsg "Not your turn"], false⟩
      else if currentPlayer.busted || currentPlayer.stayed then some ⟨state, [], false⟩
      else
        match drawCard shuffle state with
        | none => none
        | some (card, state) =>
          match processCard state state.currentPlayerIndex card false with
          | none => none
          | some (state, result) =>
            if result.flip7 then some ⟨endRound (stayAllActive state), [], true⟩
            else some ⟨advanceTurn state, [], true⟩

def handleStay (connId : String) (state : GameState) : Option StepResult :=
  if state.phase ≠ Phase.playing then some ⟨state, [], false⟩
  else
    match state.players.get? state.currentPlayerIndex with
    | none => none
    | some currentPlayer =>
      if connId ≠ currentPlayer.id then
        some ⟨state, [ServerMessage.errorMsg "Not your turn"], false⟩
      else if currentPlayer.busted || currentPlayer.stayed then some ⟨state, [], false⟩
      else
        let currentPlayer := { currentPlayer with stayed := true }
        let currentPlayer :=
          { currentPlayer with roundScore := calculateRoundScore currentPlayer }
        let state := { state with
          players := state.players.set state.currentPlayerIndex currentPlayer
          lastAction := some (currentPlayer.name ++ " stayed with "
            ++ toString currentPlayer.roundScore ++ " points") }
        some ⟨advanceTurn state, [], true⟩

/-- The body of the `for (let i = 0; i < 3; i++)` draw loop of `handleFlipThree`;
the `Bool` in the result records whether a Flip 7 stopped the loop. -/
def flipThreeLoop (shuffle : List Card → List Card) (state : GameState) (playerIndex : Nat) :
    Nat → Option (GameState × Bool)
  | 0 => some (state, false)
  | Nat.succ n =>
    match drawCard shuffle state with
    | none => none
    | some (card, state) =>
      match processCard state playerIndex card true with
      | none => none
      | some (state, result) =>
        if result.flip7 then some (state, true)
        else
          let playerBusted :=
            match state.players.get? playerIndex with
            | some p => p.busted
            | none => false
          if result.busted || playerBusted then some (state, false)
          else flipThreeLoop shuffle state playerIndex n

def handleFlipThree (shuffle : List Card → List Card) (connId : String) (state : GameState) :
    Option StepResult :=
  if state.phase ≠ Phase.playing then some ⟨state, [], false⟩
  else
    match state.players.findIdx? (fun p => p.id == connId) with
    | none => some ⟨state, [], false⟩
    | some playerIndex =>
      match state.players.get? playerIndex with
      | none => some ⟨state, [], false⟩
      | some player =>
        if player.busted || player.stayed then some ⟨state, [], false⟩
        else
          let state := { state with lastAction := some (player.name ++ " is flipping 3!") }
          match flipThreeLoop shuffle state playerIndex 3 with
          | none => none
          | some (state, flip7) =>
            if flip7 then some ⟨endRound (stayAllActive state), [], true⟩
            else if isRoundOver state then some ⟨endRound state, [], true⟩
            else some ⟨state, [], true⟩

def handleFreeze (connId : String) (state : GameState) : Option StepResult :=
  if state.phase ≠ Phase.playing then some ⟨state, [], false⟩
  else
    match state.players.findIdx? (fun p => p.id == connId) with
    | none => some ⟨state, [], false⟩
    | some i =>
      match state.players.get? i with
      | none => some ⟨state, [], false⟩
      | some player =>
        if player.busted || player.stayed then some ⟨state, [], false⟩
        else
          let player := { player with stayed := true }
          let player := { player with roundScore := calculateRoundScore player }
          let state := { state with
            players := state.players.set i player
            lastAction := some (player.name ++ " was frozen! They stay with "
              ++ toString player.roundScore ++ " points.") }
          match state.players.get? state.currentPlayerIndex with
          | none => none
          | some currentPlayer =>
            if currentPlayer.id == player.id then some ⟨advanceTurn state, [], true⟩
            else if isRoundOver state then some ⟨endRound state, [], true⟩
            else some ⟨state, [], true⟩

def handleNewRound (shuffle : List Card → List Card) (connId : String) (state : GameState) :
    StepResult :=
  if state.phase ≠ Phase.round_end then ⟨state, [], false⟩
  else if connId ≠ state.hostId then
    ⟨state, [ServerMessage.errorMsg "Only the host can advance"], false⟩
  else ⟨startNewRound shuffle state, [], true⟩

def handleRestart (connId : String) (state : GameState) : StepResult :=
  if connId ≠ state.hostId then ⟨state, [], false⟩
  else
    let players := state.players.map (fun p =>
      { p with
        cards := []
        score := 0
        roundScore := 0
        busted := false
        stayed := false
        hasSecondChance := false })
    let newState := createInitialState state.hostId
    ⟨{ newState with
         players := players
         phase := Phase.lobby
         lastAction := some "Game restarted!" },
     [], true⟩

/-- The client message kinds dispatched by `onMessage`. -/
inductive Action
  | join (name : String)
  | start_game
  | hit
  | stay
  | use_flip_three
  | use_freeze
  | new_round
  | restart
deriving DecidableEq

/-- `onMessage` dispatch: apply one inbound action from connection `connId`. -/
def applyAction (shuffle : List Card → List Card) (connId : String) (a : Action)
    (state : GameState) : Option StepResult :=
  match a with
  | Action.join name => some (handleJoin connId name state)
  | Action.start_game => some (handleStartGame shuffle connId state)
  | Action.hit => handleHit shuffle connId state
  | Action.stay => handleStay connId state
  | Action.use_flip_three => handleFlipThree shuffle connId state
  | Action.use_freeze => handleFreeze connId state
  | Action.new_round => some (handleNewRound shuffle connId state)
  | Action.restart => some (handleRestart connId state)

/-- Multiset of all cards held in players' hands. -/
def handCards (players : List Player) : Multiset Card :=
  (players.map (fun p => (p.cards : Multiset Card))).sum

/-- Multiset of every card in the room: draw pile, discard pile, and all hands. -/
def allCards (s : GameState) : Multiset Card :=
  (s.deck : Multiset Card) + (s.discard : Multiset Card) + handCards s.players

/-- Total count of cards in the draw pile, the discard pile and all hands. -/
def cardCount (s : GameState) : Nat :=
  s.deck.length + s.discard.length + (s.players.map (fun p => p.cards.length)).sum

/-- The player pointed to by `currentPlayerIndex` exists and is neither busted nor stayed. -/
def currentPlayerActive (s : GameState) : Bool :=
  match s.players.get? s.currentPlayerIndex with
  | some p => !p.busted && !p.stayed
  | none => false

/-- While the phase is `playing`, the current-turn player is neither busted nor stayed. -/
def TurnInvariant (s : GameState) : Prop :=
  s.phase = Phase.playing → currentPlayerActive s = true

/-- States reachable after the game has started (a round was started from a lobby
state whose players hold no cards yet) with no intervening restart. -/
inductive Reachable (shuffle : List Card → List Card) : GameState → Prop
  | start (s : GameState) (h1 : s.phase = Phase.lobby)
      (h2 : ∀ p ∈ s.players, p.cards = []) (h3 : s.roundNumber = 0) :
      Reachable shuffle (startNewRound shuffle s)
  | step (s : GameState) (connId : String) (a : Action) (r : StepResult)
      (hs : Reachable shuffle s) (ha : a ≠ Action.restart)
      (happ : applyAction shuffle connId a s = some r) : Reachable shuffle r.state

/-- Round score as the specification words it: the number-card sum, doubled when a
multiplier is held; plus the modifier sum (never doubled); plus a flat 15 bonus
when at least 7 distinct number values are held. -/
def specRoundScore (p : Player) : Int :=
  let numberVals := (p.cards.filter (fun c => c.type == CardType.number)).map (fun c => c.value)
  let base := numberVals.sum
  let doubled := if p.cards.any (fun c => c.type == CardType.multiplier) then 2 * base else base
  let modSum := ((p.cards.filter (fun c => c.type == CardType.modifier)).map (fun c => c.value)).sum
  doubled + modSum + (if 7 ≤ numberVals.toFinset.card then 15 else 0)

/-- The players holding the maximum cumulative score, as the specification words it. -/
def maxHolders (u : List Player) : List Player :=
  u.filter (fun q => u.all (fun r => decide (r.score ≤ q.score)))

/-! ### Helper lemmas -/

/-- `calculateRoundScore` reads only the hand contents. -/
theorem calculateRoundScore_congr (q p : Player) (h : q.cards = p.cards) :
    calculateRoundScore q = calculateRoundScore p := by
  unfold calculateRoundScore
  rw [h]

theorem foldl_add_value (l : List Card) (a : Int) :
    l.foldl (fun sum c => sum + c.value) a = a + (l.map (fun c => c.value)).sum := by
  induction l generalizing a with
  | nil => simp
  | cons c cs ih => simp [List.foldl, ih, add_assoc]

theorem endRound_players (s : GameState) :
    (endRound s).players = s.players.map settleScore := by
  simp only [endRound]
  split
  · split <;> rfl
  · rfl

theorem endRound_phase (s : GameState) :
    (endRound s).phase = Phase.game_over ∨ (endRound s).phase = Phase.round_end := by
  simp only [endRound]
  split
  · split
    · exact Or.inl rfl
    · exact Or.inr rfl
  · exact Or.inr rfl

theorem endRound_currentPlayerIndex (s : GameState) :
    (endRound s).currentPlayerIndex = s.currentPlayerIndex := by
  simp only [endRound]
  split
  · split <;> rfl
  · rfl

theorem settleScore_busted (p : Player) (h : p.busted = true) : settleScore p = p := by
  simp [settleScore, h]

theorem settleScore_fields (p : Player) :
    (settleScore p).cards = p.cards ∧ (settleScore p).busted = p.busted ∧
    (settleScore p).stayed = p.stayed ∧ (settleScore p).id = p.id ∧
    (settleScore p).name = p.name := by
  unfold settleScore
  split <;> simp

theorem settleScore_not_busted (p : Player) (h : p.busted = false) :
    settleScore p = { p with
      roundScore := calculateRoundScore p
      score := p.score + calculateRoundScore p } := by
  simp [settleScore, h]

/-! ### C9: deck composition -/

/-- C9: `createDeck` returns exactly 95 cards with the fixed composition: for each
number value N from 0 to 12, N copies except value 0 which has exactly 1 copy
(79 number cards total); 3 copies each of freeze, flip-three and second-chance;
modifier cards with values 2, 4, 6, 8, 8, 10; and exactly one multiplier of value 2. -/
theorem createDeck_composition :
    createDeck.length = 95 ∧
    (createDeck.filter (fun c => c.type == CardType.number)).length = 79 ∧
    (createDeck.filter (fun c => c.type == CardType.number && c.value == (0 : Int))).length = 1 ∧
    (createDeck.filter (fun c => c.type == CardType.number && c.value == (1 : Int))).length = 1 ∧
    (createDeck.filter (fun c => c.type == CardType.number && c.value == (2 : Int))).length = 2 ∧
    (createDeck.filter (fun c => c.type == CardType.number && c.value == (3 : Int))).length = 3 ∧
    (createDeck.filter (fun c => c.type == CardType.number && c.value == (4 : Int))).length = 4 ∧
    (createDeck.filter (fun c => c.type == CardType.number && c.value == (5 : Int))).length = 5 ∧
    (createDeck.filter (fun c => c.type == CardType.number && c.value == (6 : Int))).length = 6 ∧
    (createDeck.filter (fun c => c.type == CardType.number && c.value == (7 : Int))).length = 7 ∧
    (createDeck.filter (fun c => c.type == CardType.number && c.value == (8 : Int))).length = 8 ∧
    (createDeck.filter (fun c => c.type == CardType.number && c.value == (9 : Int))).length = 9 ∧
    (createDeck.filter (fun c => c.type == CardType.number && c.value == (10 : Int))).length = 10 ∧
    (createDeck.filter (fun c => c.type == CardType.number && c.value == (11 : Int))).length = 11 ∧
    (createDeck.filter (fun c => c.type == CardType.number && c.value == (12 : Int))).length = 12 ∧
    (createDeck.filter (fun c => c.type == CardType.freeze)).length = 3 ∧
    (createDeck.filter (fun c => c.type == CardType.flip_three)).length = 3 ∧
    (createDeck.filter (fun c => c.type == CardType.second_chance)).length = 3 ∧
    ((createDeck.filter (fun c => c.type == CardType.modifier)).map (fun c => c.value))
      = [2, 4, 6, 8, 8, 10] ∧
    ((createDeck.filter (fun c => c.type == CardType.multiplier)).map (fun c => c.value))
      = [2] := by
  decide

/-! ### C5: round score formula and purity -/

/-- C5: a player's round score equals the sum of number-card values, doubled when at
least one multiplier card is present, plus the sum of modifier values (never doubled),
plus a flat 15 bonus when at least 7 distinct number values are held; and it is a pure
function of the hand contents alone. -/
theorem roundScore_spec (p : Player) :
    calculateRoundScore p = specRoundScore p ∧
    ∀ q : Player, q.cards = p.cards → calculateRoundScore q = calculateRoundScore p := by
  constructor
  · simp only [calculateRoundScore, specRoundScore, foldl_add_value, List.card_toFinset,
      zero_add, ge_iff_le]
    split_ifs <;> ring
  · intro q hq
    exact calculateRoundScore_congr q p hq

/-- Witness for C5 at the Flip 7 scenario hand: seven distinct number cards 1..7. -/
theorem roundScore_spec_witness :
    calculateRoundScore
        { id := "w", name := "w",
          cards := (List.range 7).map (fun n =>
            { id := toString n, type := CardType.number, value := (n : Int) + 1,
              label := toString n }),
          score := 0, roundScore := 0, busted := false, stayed := false,
          hasSecondChance := false, connected := true }
      = specRoundScore
        { id := "w", name := "w",
          cards := (List.range 7).map (fun n =>
            { id := toString n, type := CardType.number, value := (n : Int) + 1,
              label := toString n }),
          score := 0, roundScore := 0, busted := false, stayed := false,
          hasSecondChance := false, connected := true } :=
  (roundScore_spec _).1

/-! ### C7: duplicate number with no second chance busts -/

/-- C7: drawing a number card duplicating a value in hand while holding no second
chance immediately busts the player: the busted flag is set, the round score is
forced to 0, the duplicate card is still added to the hand — and round end leaves a
busted player untouched, so no cumulative score is added. -/
theorem bust_on_duplicate (s : GameState) (i : Nat) (p : Player) (card : Card) (ft : Bool)
    (hp : s.players.get? i = some p) (hnum : card.type = CardType.number)
    (hdup : hasNumberDuplicate p card = true) (hsc : p.hasSecondChance = false) :
    (∃ s', processCard s i card ft = some (s', ⟨true, false, false⟩) ∧
      s'.players = s.players.set i
        { p with busted := true, roundScore := 0, cards := p.cards ++ [card] } ∧
      s'.deck = s.deck ∧ s'.discard = s.discard) ∧
    (∀ (t : GameState) (j : Nat) (q : Player),
      t.players.get? j = some q → q.busted = true →
      (endRound t).players.get? j = some q) := by
  constructor
  · have key : processCard s i card ft = some
        ({ s with
            players := s.players.set i
              { p with busted := true, roundScore := 0, cards := p.cards ++ [card] }
            lastAction := some (p.name ++ " drew a duplicate " ++ toString card.value
              ++ " and busted!") },
          ⟨true, false, false⟩) := by
      unfold processCard
      rw [hp]
      simp [hnum, hdup, hsc]
    exact ⟨_, key, rfl, rfl, rfl⟩
  · intro t j q hq hb
    rw [endRound_players, List.get?_map, hq]
    simp [settleScore_busted q hb]

/-! ### Concrete fixtures used by witnesses and counterexamples -/

def cNum (v : Int) : Card :=
  { id := "n" ++ toString v, type := CardType.number, value := v, label := toString v }

def cSC : Card :=
  { id := "sc0", type := CardType.second_chance, value := 0, label := "2nd Chance" }

def basePlayer (pid : String) : Player :=
  { id := pid, name := pid, cards := [], score := 0, roundScore := 0, busted := false,
    stayed := false, hasSecondChance := false, connected := true }

def baseState : GameState :=
  { phase := Phase.playing, players := [], currentPlayerIndex := 0, deck := [], discard := [],
    roundNumber := 1, hostId := "A", targetScore := 200, lastAction := none, winner := none }

def wP7 : Player := { basePlayer "A" with cards := [cNum 3, cNum 5] }

def wS7 : GameState := { baseState with players := [wP7] }

/-- Witness for C7: a player with hand {3, 5} and no second chance drawing a
duplicate 3 busts with round score forced to 0. -/
theorem bust_on_duplicate_witness :
    (wS7.players.get? 0 = some wP7 ∧ (cNum 3).type = CardType.number ∧
      hasNumberDuplicate wP7 (cNum 3) = true ∧ wP7.hasSecondChance = false) ∧
    ((∃ s', processCard wS7 0 (cNum 3) false = some (s', ⟨true, false, false⟩) ∧
        s'.players = wS7.players.set 0
          { wP7 with busted := true, roundScore := 0, cards := wP7.cards ++ [cNum 3] } ∧
        s'.deck = wS7.deck ∧ s'.discard = wS7.discard) ∧
      (∀ (t : GameState) (j : Nat) (q : Player),
        t.players.get? j = some q → q.busted = true →
        (endRound t).players.get? j = some q)) :=
  ⟨⟨rfl, rfl, by decide, rfl⟩,
    bust_on_duplicate wS7 0 wP7 (cNum 3) false rfl rfl (by decide) rfl⟩

/-! ### C3: round-end scoring and win detection -/

theorem foldl_max_le (xs : List Int) (x : Int) :
    x ≤ xs.foldl max x ∧ ∀ y ∈ xs, y ≤ xs.foldl max x := by
  induction xs generalizing x with
  | nil => simp
  | cons z zs ih =>
    rw [List.foldl_cons]
    refine ⟨le_trans (le_max_left x z) (ih (max x z)).1, ?_⟩
    intro y hy
    rcases List.mem_cons.mp hy with h | h
    · subst h
      exact le_trans (le_max_right x y) (ih (max x y)).1
    · exact (ih (max x z)).2 y h

theorem foldl_max_mem (xs : List Int) (x : Int) :
    xs.foldl max x = x ∨ xs.foldl max x ∈ xs := by
  induction xs generalizing x with
  | nil => exact Or.inl rfl
  | cons y ys ih =>
    rcases ih (max x y) with h | h
    · rcases max_choice x y with hm | hm
      · exact Or.inl (by rw [List.foldl_cons, h, hm])
      · exact Or.inr (by rw [List.foldl_cons, h, hm]; exact List.mem_cons_self y ys)
    · exact Or.inr (List.mem_cons_of_mem y h)

theorem listMaxInt_mem (l : List Int) (h : l ≠ []) : listMaxInt l ∈ l := by
  match l with
  | [] => exact absurd rfl h
  | x :: xs =>
    show xs.foldl max x ∈ x :: xs
    rcases foldl_max_mem xs x with h' | h'
    · rw [h']
      exact List.mem_cons_self x xs
    · exact List.mem_cons_of_mem x h'

theorem listMaxInt_le (l : List Int) : ∀ x ∈ l, x ≤ listMaxInt l := by
  match l with
  | [] => simp
  | x :: xs =>
    intro y hy
    show y ≤ xs.foldl max x
    rcases List.mem_cons.mp hy with h | h
    · subst h
      exact (foldl_max_le xs y).1
    · exact (foldl_max_le xs x).2 y h

/-- The winners computed by `endRound` (players whose score equals the list maximum)
are exactly the players holding the maximum cumulative score. -/
theorem winners_eq_maxHolders (u : List Player) (hne : u ≠ []) :
    u.filter (fun p => p.score == listMaxInt (u.map (fun q => q.score))) = maxHolders u := by
  unfold maxHolders
  apply List.filter_congr
  intro p hp
  have hmapne : u.map (fun q => q.score) ≠ [] := by
    simpa using hne
  have hM_mem := listMaxInt_mem (u.map (fun q => q.score)) hmapne
  have hM_le := listMaxInt_le (u.map (fun q => q.score))
  rw [Bool.eq_iff_iff]
  simp only [beq_iff_eq, List.all_eq_true, decide_eq_true_eq]
  constructor
  · intro heq r hr
    exact heq ▸ hM_le r.score (List.mem_map.mpr ⟨r, hr, rfl⟩)
  · intro hall
    rcases List.mem_map.mp hM_mem with ⟨r, hr, hrs⟩
    exact le_antisymm (hM_le p.score (List.mem_map.mpr ⟨p, hp, rfl⟩)) (hrs ▸ hall r hr)

/-- C3: `endRound` adds the final round score of every non-busted player to their
cumulative score; then, if some player's cumulative score reached the target, it
finds the maximum cumulative score over all players: a unique holder wins (phase
`game_over`, `winner` set to their id), while two or more tied holders leave the
phase at `round_end` and the game continues. -/
theorem endRound_scoring_and_win (s : GameState) :
    (∀ j p, s.players.get? j = some p → p.busted = false →
      (endRound s).players.get? j =
        some { p with
                roundScore := calculateRoundScore p
                score := p.score + calculateRoundScore p }) ∧
    ((∃ p ∈ s.players.map settleScore, s.targetScore ≤ p.score) →
      (∀ w, maxHolders (s.players.map settleScore) = [w] →
        (endRound s).phase = Phase.game_over ∧ (endRound s).winner = some w.id) ∧
      (2 ≤ (maxHolders (s.players.map settleScore)).length →
        (endRound s).phase = Phase.round_end ∧ (endRound s).winner = s.winner)) ∧
    ((∀ p ∈ s.players.map settleScore, p.score < s.targetScore) →
      (endRound s).phase = Phase.round_end ∧ (endRound s).winner = s.winner) := by
  refine ⟨?_, ?_, ?_⟩
  · intro j p hj hb
    rw [endRound_players, List.get?_map, hj]
    simp [settleScore_not_busted p hb]
  · intro hex
    have hne : s.players.map settleScore ≠ [] := by
      rcases hex with ⟨p, hp, _⟩
      exact List.ne_nil_of_mem hp
    have hfilter : (List.filter (fun p => decide (p.score ≥ s.targetScore))
        (s.players.map settleScore)).length > 0 := by
      rcases hex with ⟨p, hp, hscore⟩
      apply List.length_pos.mpr
      intro hnil
      have := List.filter_eq_nil.mp hnil p hp
      simp [hscore] at this
    constructor
    · intro w hw
      simp only [endRound, if_pos hfilter, winners_eq_maxHolders _ hne, hw]
      exact ⟨trivial, trivial⟩
    · intro hlen
      obtain ⟨a, b, rest, habl⟩ : ∃ a b rest,
          maxHolders (s.players.map settleScore) = a :: b :: rest := by
        match hm : maxHolders (s.players.map settleScore) with
        | [] => rw [hm] at hlen; simp at hlen
        | [a] => rw [hm] at hlen; simp at hlen
        | a :: b :: rest => exact ⟨a, b, rest, rfl⟩
      simp only [endRound, if_pos hfilter, winners_eq_maxHolders _ hne, habl]
      exact ⟨trivial, trivial⟩
  · intro hall
    have hfilter : (List.filter (fun p => decide (p.score ≥ s.targetScore))
        (s.players.map settleScore)) = [] := by
      apply List.filter_eq_nil.mpr
      intro p hp
      simp [not_le.mpr (hall p hp)]
    simp only [endRound, hfilter]
    simp

def wTieA : Player := { basePlayer "A" with score := 205, stayed := true }

def wTieB : Player := { basePlayer "B" with score := 205, stayed := true }

def wSTie : GameState := { baseState with players := [wTieA, wTieB] }

/-- Witness for C3 at the tie scenario: two players both ending the round at
cumulative score 205 leave the phase at `round_end`, not `game_over`. -/
theorem endRound_scoring_and_win_witness :
    (∃ p ∈ wSTie.players.map settleScore, wSTie.targetScore ≤ p.score) ∧
    (2 ≤ (maxHolders (wSTie.players.map settleScore)).length) ∧
    ((endRound wSTie).phase = Phase.round_end ∧ (endRound wSTie).winner = wSTie.winner) :=
  ⟨⟨settleScore wTieA, by decide, by decide⟩, by decide,
    ((endRound_scoring_and_win wSTie).2.1
      ⟨settleScore wTieA, by decide, by decide⟩).2 (by decide)⟩

/-! ### C10: use_freeze works for any active player, hit and stay only for the current one -/

theorem advanceTurn_players (t : GameState) :
    (advanceTurn t).players = t.players ∨ (advanceTurn t).players = t.players.map settleScore := by
  unfold advanceTurn
  split
  · exact Or.inr (endRound_players t)
  · split
    · exact Or.inr (endRound_players _)
    · exact Or.inl rfl

theorem advanceTurn_length (t : GameState) :
    (advanceTurn t).players.length = t.players.length := by
  rcases advanceTurn_players t with h | h <;> simp [h]

/-- Intermediate player record built by `handleFreeze` for the frozen sender. -/
def frozenPlayer (p : Player) : Player :=
  { p with stayed := true, roundScore := calculateRoundScore { p with stayed := true } }

/-- Intermediate state built by `handleFreeze` after marking the sender stayed. -/
def frozenState (s : GameState) (i : Nat) (p : Player) : GameState :=
  { s with
    players := s.players.set i (frozenPlayer p)
    lastAction := some ((frozenPlayer p).name ++ " was frozen! They stay with "
      ++ toString (frozenPlayer p).roundScore ++ " points.") }

/-- Control-flow characterization of `handleFreeze` for an active sender found at index `i`. -/
theorem handleFreeze_run (connId : String) (s : GameState) (i : Nat) (p : Player)
    (hphase : s.phase = Phase.playing)
    (hidx : s.players.findIdx? (fun q => q.id == connId) = some i)
    (hp : s.players.get? i = some p) (hb : p.busted = false) (hst : p.stayed = false) :
    handleFreeze connId s =
      match (frozenState s i p).players.get? s.currentPlayerIndex with
      | none => none
      | some currentPlayer =>
        if currentPlayer.id == (frozenPlayer p).id then
          some ⟨advanceTurn (frozenState s i p), [], true⟩
        else if isRoundOver (frozenState s i p) then
          some ⟨endRound (frozenState s i p), [], true⟩
        else some ⟨frozenState s i p, [], true⟩ := by
  unfold handleFreeze frozenState frozenPlayer
  rw [if_neg (show ¬s.phase ≠ Phase.playing from by simp [hphase])]
  simp only [hidx, hp]
  rw [if_neg (show ¬((p.busted || p.stayed) = true) from by simp [hb, hst])]

theorem frozenPlayer_fields (p : Player) :
    (frozenPlayer p).stayed = true ∧ (frozenPlayer p).cards = p.cards ∧
    (frozenPlayer p).id = p.id ∧ (frozenPlayer p).busted = p.busted ∧
    (frozenPlayer p).roundScore = calculateRoundScore p := by
  refine ⟨rfl, rfl, rfl, rfl, ?_⟩
  exact calculateRoundScore_congr _ _ rfl

/-- C10: during the playing phase a `use_freeze` from any player who is neither
busted nor stayed marks the sender stayed with their round score recomputed from
their hand; when the sender is not the current-turn player, `currentPlayerIndex`
is unchanged; in contrast, hit and stay from a non-current-turn sender are rejected
with a "Not your turn" error and no state change. -/
theorem freeze_any_active (shuffle : List Card → List Card) (connId : String) (s : GameState)
    (i : Nat) (p cp : Player) (hphase : s.phase = Phase.playing)
    (hidx : s.players.findIdx? (fun q => q.id == connId) = some i)
    (hp : s.players.get? i = some p) (hb : p.busted = false) (hst : p.stayed = false)
    (hcp : s.players.get? s.currentPlayerIndex = some cp) :
    (∃ r, handleFreeze connId s = some r ∧ r.broadcast = true ∧
      (∃ q, r.state.players.get? i = some q ∧ q.stayed = true ∧
        q.roundScore = calculateRoundScore p) ∧
      (cp.id ≠ p.id → r.state.currentPlayerIndex = s.currentPlayerIndex)) ∧
    (∀ (connId2 : String) (cp2 : Player),
      s.players.get? s.currentPlayerIndex = some cp2 → connId2 ≠ cp2.id →
      handleHit shuffle connId2 s = some ⟨s, [ServerMessage.errorMsg "Not your turn"], false⟩ ∧
      handleStay connId2 s = some ⟨s, [ServerMessage.errorMsg "Not your turn"], false⟩) := by
  obtain ⟨hilt, -⟩ := List.get?_eq_some.mp hp
  obtain ⟨hfp_st, hfp_cards, hfp_id, hfp_b, hfp_rs⟩ := frozenPlayer_fields p
  have hfp_busted : (frozenPlayer p).busted = false := hfp_b.trans hb
  have hsender : (frozenState s i p).players.get? i = some (frozenPlayer p) :=
    List.get?_set_eq_of_lt (frozenPlayer p) hilt
  have hset_st : (settleScore (frozenPlayer p)).stayed = true := by
    rw [(settleScore_fields (frozenPlayer p)).2.2.1, hfp_st]
  have hset_rs : (settleScore (frozenPlayer p)).roundScore = calculateRoundScore p := by
    rw [settleScore_not_busted _ hfp_busted]
    exact calculateRoundScore_congr _ _ hfp_cards
  have hsender_endRound :
      (endRound (frozenState s i p)).players.get? i = some (settleScore (frozenPlayer p)) := by
    rw [endRound_players, List.get?_map, hsender]
    rfl
  have hsender_advance :
      ∃ q, (advanceTurn (frozenState s i p)).players.get? i = some q ∧ q.stayed = true ∧
        q.roundScore = calculateRoundScore p := by
    rcases advanceTurn_players (frozenState s i p) with hpl | hpl
    · exact ⟨frozenPlayer p, by rw [hpl]; exact hsender, hfp_st, hfp_rs⟩
    · refine ⟨settleScore (frozenPlayer p), ?_, hset_st, hset_rs⟩
      rw [hpl, List.get?_map, hsender]
      rfl
  constructor
  · rw [handleFreeze_run connId s i p hphase hidx hp hb hst]
    by_cases hci : s.currentPlayerIndex = i
    · have hcp_eq : cp = p := by
        rw [hci, hp] at hcp
        exact (Option.some.inj hcp).symm
      have hq : (frozenState s i p).players.get? s.currentPlayerIndex
          = some (frozenPlayer p) := by
        rw [show (frozenState s i p).players.get? s.currentPlayerIndex
            = (s.players.set i (frozenPlayer p)).get? s.currentPlayerIndex from rfl, hci]
        exact List.get?_set_eq_of_lt (frozenPlayer p) hilt
      simp only [hq, beq_self_eq_true, if_true]
      exact ⟨_, rfl, rfl, hsender_advance, fun hne => absurd (hcp_eq ▸ rfl) hne⟩
    · have hq : (frozenState s i p).players.get? s.currentPlayerIndex = some cp := by
        rw [show (frozenState s i p).players.get? s.currentPlayerIndex
            = (s.players.set i (frozenPlayer p)).get? s.currentPlayerIndex from rfl,
          List.get?_set_ne _ _ (fun h => hci h.symm)]
        exact hcp
      simp only [hq]
      by_cases hid : cp.id = p.id
      · have hbeq : (cp.id == (frozenPlayer p).id) = true := beq_iff_eq.mpr (hfp_id ▸ hid)
        simp only [hbeq, if_true]
        exact ⟨_, rfl, rfl, hsender_advance, fun hne => absurd hid hne⟩
      · have hbeq : (cp.id == (frozenPlayer p).id) = false :=
          beq_eq_false_iff_ne.mpr (hfp_id ▸ hid)
        simp only [hbeq, Bool.false_eq_true, if_false]
        split
        · refine ⟨_, rfl, rfl,
            ⟨settleScore (frozenPlayer p), hsender_endRound, hset_st, hset_rs⟩, ?_⟩
          intro _
          exact endRound_currentPlayerIndex (frozenState s i p)
        · exact ⟨_, rfl, rfl, ⟨frozenPlayer p, hsender, hfp_st, hfp_rs⟩, fun _ => rfl⟩
  · intro connId2 cp2 hcp2 hne2
    constructor
    · unfold handleHit
      rw [if_neg (show ¬s.phase ≠ Phase.playing from by simp [hphase])]
      simp only [hcp2]
      rw [if_pos hne2]
    · unfold handleStay
      rw [if_neg (show ¬s.phase ≠ Phase.playing from by simp [hphase])]
      simp only [hcp2]
      rw [if_pos hne2]

def wFrA : Player := basePlayer "A"

def wFrB : Player := basePlayer "B"

def wSFr : GameState := { baseState with players := [wFrA, wFrB] }

/-- Witness for C10: with player A at the current turn, a `use_freeze` from B (not
the current-turn player) succeeds and leaves `currentPlayerIndex` unchanged, while a
hit or stay from B is rejected with a "Not your turn" error. -/
theorem freeze_any_active_witness :
    (wSFr.phase = Phase.playing ∧
      wSFr.players.findIdx? (fun q => q.id == "B") = some 1 ∧
      wSFr.players.get? 1 = some wFrB ∧ wFrB.busted = false ∧ wFrB.stayed = false ∧
      wSFr.players.get? wSFr.currentPlayerIndex = some wFrA) ∧
    (∃ r, handleFreeze "B" wSFr = some r ∧ r.broadcast = true ∧
      (∃ q, r.state.players.get? 1 = some q ∧ q.stayed = true ∧
        q.roundScore = calculateRoundScore wFrB) ∧
      (wFrA.id ≠ wFrB.id → r.state.currentPlayerIndex = wSFr.currentPlayerIndex)) ∧
    (∀ (connId2 : String) (cp2 : Player),
      wSFr.players.get? wSFr.currentPlayerIndex = some cp2 → connId2 ≠ cp2.id →
      handleHit (fun l => l) connId2 wSFr
          = some ⟨wSFr, [ServerMessage.errorMsg "Not your turn"], false⟩ ∧
      handleStay connId2 wSFr
          = some ⟨wSFr, [ServerMessage.errorMsg "Not your turn"], false⟩) :=
  ⟨⟨rfl, by decide, rfl, rfl, rfl, rfl⟩,
    freeze_any_active (fun l => l) "B" wSFr 1 wFrB wFrA rfl (by decide) rfl rfl rfl rfl⟩

/-! ### C2: the current-turn player is active while playing -/

theorem getNextActivePlayerIndex_spec (s : GameState) (fromIndex idx : Nat)
    (h : getNextActivePlayerIndex s fromIndex = some idx) :
    ∃ p, s.players.get? idx = some p ∧ p.busted = false ∧ p.stayed = false := by
  unfold getNextActivePlayerIndex at h
  obtain ⟨a, ha, hfa⟩ := List.exists_of_findSome?_eq_some h
  dsimp only at hfa
  split at hfa
  · next p heq =>
    split at hfa
    · next hc =>
      obtain ⟨hb, hst⟩ : p.busted = false ∧ p.stayed = false := by
        simpa using hc
      refine ⟨p, ?_, hb, hst⟩
      rw [← Option.some.inj hfa]
      exact heq
    · cases hfa
  · cases hfa

theorem currentPlayerActive_congr (t s : GameState)
    (h : t.players.get? t.currentPlayerIndex = s.players.get? s.currentPlayerIndex) :
    currentPlayerActive t = currentPlayerActive s := by
  unfold currentPlayerActive
  rw [h]

theorem endRound_not_playing (t : GameState) : (endRound t).phase ≠ Phase.playing := by
  rcases endRound_phase t with h | h <;> rw [h] <;> intro hc <;> cases hc

theorem advanceTurn_turnInvariant (t : GameState) : TurnInvariant (advanceTurn t) := by
  unfold advanceTurn
  split
  · intro hph
    exact absurd hph (endRound_not_playing t)
  · split
    · intro hph
      exact absurd hph (endRound_not_playing t)
    · next idx heq =>
      intro _
      obtain ⟨p, hp, hb, hst⟩ := getNextActivePlayerIndex_spec t t.currentPlayerIndex idx heq
      unfold currentPlayerActive
      simp only
      rw [hp]
      simp [hb, hst]

/-- Counterexample for C2 as stated: player A (current turn, hand holding a 3, no
second chance) uses flip-three and draws a duplicate 3 from the deck; the action
completes with the phase still `playing` and `currentPlayerIndex` still pointing at
A, who is now busted. -/
def wC2A : Player := { basePlayer "A" with cards := [cNum 3] }

def wSC2 : GameState := { baseState with players := [wC2A, basePlayer "B"], deck := [cNum 3] }

theorem flipThree_turn_counterexample :
    (applyAction (fun l => l) "A" Action.use_flip_three wSC2).map
        (fun r => (r.state.phase, r.state.currentPlayerIndex,
          r.state.players.map Player.busted, r.state.players.map Player.stayed))
      = some (Phase.playing, 0, [true, false], [false, false]) := by
  decide

/-- C2 (amended): after every completed `hit`, `stay` or `use_freeze`, while the
phase is `playing` the player at `currentPlayerIndex` is neither busted nor stayed
(given the invariant held before); a completed `use_flip_three` in which the
current-turn player busts without ending the round can instead leave
`currentPlayerIndex` pointing at a busted player. -/
theorem turn_invariant_preserved (shuffle : List Card → List Card) (connId : String)
    (a : Action) (s : GameState) (r : StepResult)
    (ha : a = Action.hit ∨ a = Action.stay ∨ a = Action.use_freeze)
    (hinv : TurnInvariant s) (happ : applyAction shuffle connId a s = some r) :
    TurnInvariant r.state := by
  rcases ha with ha | ha | ha <;> subst ha
  · -- hit
    simp only [applyAction] at happ
    unfold handleHit at happ
    split at happ
    · cases happ
      exact hinv
    · split at happ
      · cases happ
      · split at happ
        · cases happ
          exact hinv
        · split at happ
          · cases happ
            exact hinv
          · split at happ
            · cases happ
            · next card s1 hdraw =>
              split at happ
              · cases happ
              · next s2 result hproc =>
                split at happ
                · cases happ
                  intro hph
                  exact absurd hph (endRound_not_playing _)
                · cases happ
                  exact advanceTurn_turnInvariant _
  · -- stay
    simp only [applyAction] at happ
    unfold handleStay at happ
    split at happ
    · cases happ
      exact hinv
    · split at happ
      · cases happ
      · split at happ
        · cases happ
          exact hinv
        · split at happ
          · cases happ
            exact hinv
          · cases happ
            exact advanceTurn_turnInvariant _
  · -- use_freeze
    simp only [applyAction] at happ
    unfold handleFreeze at happ
    split at happ
    · cases happ
      exact hinv
    · split at happ
      · cases happ
        exact hinv
      · next i hfind =>
        split at happ
        · cases happ
          exact hinv
        · next p hp =>
          split at happ
          · cases happ
            exact hinv
          · next hact =>
            dsimp only at happ
            split at happ
            · cases happ
            · next currentPlayer hcur =>
              split at happ
              · cases happ
                exact advanceTurn_turnInvariant _
              · next hneid =>
                split at happ
                · cases happ
                  intro hph
                  exact absurd hph (endRound_not_playing _)
                · next hro =>
                  cases happ
                  intro hph
                  obtain ⟨hilt, -⟩ := List.get?_eq_some.mp hp
                  have hci : s.currentPlayerIndex ≠ i := by
                    intro hci
                    rw [hci, List.get?_set_eq_of_lt _ hilt] at hcur
                    have hcp := Option.some.inj hcur
                    apply hneid
                    rw [← hcp]
                    exact beq_self_eq_true _
                  refine (currentPlayerActive_congr _ s ?_).trans (hinv hph)
                  exact List.get?_set_ne _ _ (fun h => hci h.symm)

/-- The result of a concrete `stay` by the current player A in `wSFr`. -/
def wC2r : StepResult :=
  match applyAction (fun l => l) "A" Action.stay wSFr with
  | some r => r
  | none => ⟨wSFr, [], false⟩

/-- Witness for the amended C2: a completed `stay` by the current player preserves
the turn invariant. -/
theorem turn_invariant_preserved_witness :
    (Action.stay = Action.hit ∨ Action.stay = Action.stay ∨ Action.stay = Action.use_freeze) ∧
    TurnInvariant wSFr ∧
    applyAction (fun l => l) "A" Action.stay wSFr = some wC2r ∧
    TurnInvariant wC2r.state :=
  ⟨Or.inr (Or.inl rfl), fun _ => rfl, rfl,
    turn_invariant_preserved (fun l => l) "A" Action.stay wSFr wC2r
      (Or.inr (Or.inl rfl)) (fun _ => rfl) rfl⟩

/-! ### C4: second chance absorbs a duplicate -/

def wC4p : Player :=
  { basePlayer "A" with
    cards := [cNum 3, cSC, { cSC with id := "sc1" }]
    hasSecondChance := true }

def wSC4 : GameState := { baseState with players := [wC4p] }

/-- Counterexample for C4 as stated: a player holding two second-chance cards who
draws a duplicate 3 has BOTH second-chance cards removed and discarded (hand left
with only the 3, discard receiving three cards), not exactly one. -/
theorem secondChance_counterexample :
    (processCard wSC4 0 (cNum 3) false).map
        (fun r => ((r.1.players.get? 0).map (fun q => (q.cards, q.busted, q.stayed)),
          r.1.discard.length, r.2))
      = some (some ([cNum 3], false, true), 3, ⟨false, false, true⟩) := by
  decide

/-- C4 (amended): for every player who draws a duplicate number card while holding a
second chance, every second-chance card in the hand and the newly drawn duplicate are
removed from play and discarded; the duplicate is not added to the hand, the player
does not bust, and on the normal single-draw path the player is marked stayed. -/
theorem secondChance_save (s : GameState) (i : Nat) (p : Player) (card : Card) (ft : Bool)
    (hp : s.players.get? i = some p) (hnum : card.type = CardType.number)
    (hdup : hasNumberDuplicate p card = true) (hsc : p.hasSecondChance = true) :
    ∃ s', processCard s i card ft = some (s', ⟨false, false, true⟩) ∧
      s'.players = s.players.set i
        { p with
          hasSecondChance := false
          cards := p.cards.filter (fun c => c.type != CardType.second_chance)
          stayed := if !ft then true else p.stayed
          roundScore := calculateRoundScore
            { p with
              hasSecondChance := false
              cards := p.cards.filter (fun c => c.type != CardType.second_chance)
              stayed := if !ft then true else p.stayed } } ∧
      s'.discard = s.discard ++ [card]
        ++ p.cards.filter (fun c => c.type == CardType.second_chance) ∧
      s'.deck = s.deck := by
  have key : processCard s i card ft = some
      ({ s with
          players := s.players.set i
            { p with
              hasSecondChance := false
              cards := p.cards.filter (fun c => c.type != CardType.second_chance)
              stayed := if !ft then true else p.stayed
              roundScore := calculateRoundScore
                { p with
                  hasSecondChance := false
                  cards := p.cards.filter (fun c => c.type != CardType.second_chance)
                  stayed := if !ft then true else p.stayed } }
          discard := s.discard ++ [card]
            ++ p.cards.filter (fun c => c.type == CardType.second_chance)
          lastAction := some (p.name ++ " drew a duplicate " ++ toString card.value
            ++ " but Second Chance saved them!") },
        ⟨false, false, true⟩) := by
    unfold processCard
    rw [hp]
    simp [hnum, hdup, hsc]
  exact ⟨_, key, rfl, rfl, rfl⟩

def wC4wp : Player :=
  { basePlayer "A" with cards := [cNum 3, cNum 5, cSC], hasSecondChance := true }

def wSC4w : GameState := { baseState with players := [wC4wp] }

/-- Witness for the amended C4 at the specification scenario: hand {3, 5,
second-chance} drawing a duplicate 3 ends with hand {3, 5}, round score 8, player
stayed, second chance and duplicate discarded. -/
theorem secondChance_save_witness :
    (wSC4w.players.get? 0 = some wC4wp ∧ (cNum 3).type = CardType.number ∧
      hasNumberDuplicate wC4wp (cNum 3) = true ∧ wC4wp.hasSecondChance = true) ∧
    (∃ s', processCard wSC4w 0 (cNum 3) false = some (s', ⟨false, false, true⟩) ∧
      s'.players = wSC4w.players.set 0
        { wC4wp with
          hasSecondChance := false
          cards := wC4wp.cards.filter (fun c => c.type != CardType.second_chance)
          stayed := if !false then true else wC4wp.stayed
          roundScore := calculateRoundScore
            { wC4wp with
              hasSecondChance := false
              cards := wC4wp.cards.filter (fun c => c.type != CardType.second_chance)
              stayed := if !false then true else wC4wp.stayed } } ∧
      s'.discard = wSC4w.discard ++ [cNum 3]
        ++ wC4wp.cards.filter (fun c => c.type == CardType.second_chance) ∧
      s'.deck = wSC4w.deck) ∧
    (processCard wSC4w 0 (cNum 3) false).map
        (fun r => (r.1.players.map (fun q => (q.cards, q.roundScore, q.stayed, q.busted))))
      = some [([cNum 3, cNum 5], 8, true, false)] :=
  ⟨⟨rfl, rfl, by decide, rfl⟩,
    secondChance_save wSC4w 0 wC4wp (cNum 3) false rfl rfl (by decide) rfl,
    by decide⟩

/-! ### C6: Flip 7 on a hit ends the round for everyone -/

theorem drawCard_fields (shuffle : List Card → List Card) (s : GameState) (card : Card)
    (s1 : GameState) (h : drawCard shuffle s = some (card, s1)) :
    s1.players = s.players ∧ s1.currentPlayerIndex = s.currentPlayerIndex ∧
    s1.phase = s.phase ∧ s1.roundNumber = s.roundNumber := by
  unfold drawCard at h
  dsimp only at h
  split_ifs at h <;> split at h <;> cases h <;> exact ⟨rfl, rfl, rfl, rfl⟩

theorem stayAllActive_mem (t : GameState) (q : Player) (hq : q ∈ (stayAllActive t).players) :
    q.busted = true ∨ q.stayed = true := by
  unfold stayAllActive at hq
  simp only [List.mem_map] at hq
  obtain ⟨q0, -, hq0⟩ := hq
  by_cases hc : (!q0.busted && !q0.stayed) = true
  · rw [if_pos hc] at hq0
    right
    rw [← hq0]
  · rw [if_neg hc] at hq0
    cases hb0 : q0.busted with
    | true =>
      left
      rw [← hq0]
      exact hb0
    | false =>
      cases hs0 : q0.stayed with
      | true =>
        right
        rw [← hq0]
        exact hs0
      | false =>
        exact absurd (by simp [hb0, hs0]) hc

/-- C6: a hit drawing a non-duplicate number card that brings the current player to
7 distinct number values forces that player to stay, marks every other active player
stayed at their current round score, and ends the round for everyone in the same
action (`endRound` runs, so the phase leaves `playing`). -/
theorem flip7_hit_ends_round (shuffle : List Card → List Card) (connId : String)
    (s : GameState) (cp : Player) (card : Card) (s1 : GameState) (r : StepResult)
    (hphase : s.phase = Phase.playing)
    (hcp : s.players.get? s.currentPlayerIndex = some cp) (hid : connId = cp.id)
    (hb : cp.busted = false) (hst : cp.stayed = false)
    (hdraw : drawCard shuffle s = some (card, s1))
    (hnum : card.type = CardType.number)
    (hnodup : hasNumberDuplicate cp card = false)
    (h7 : 7 ≤ getUniqueNumberCount { cp with cards := cp.cards ++ [card] })
    (hr : handleHit shuffle connId s = some r) :
    (r.state.phase = Phase.game_over ∨ r.state.phase = Phase.round_end) ∧
    (∀ q ∈ r.state.players, q.busted = true ∨ q.stayed = true) ∧
    (∃ p', r.state.players.get? s.currentPlayerIndex = some p' ∧ p'.stayed = true) ∧
    (∀ j q, j ≠ s.currentPlayerIndex → s.players.get? j = some q →
      q.busted = false → q.stayed = false →
      ∃ q', r.state.players.get? j = some q' ∧ q'.stayed = true ∧
        q'.roundScore = calculateRoundScore q) := by
  obtain ⟨hpl1, hci1, -, -⟩ := drawCard_fields shuffle s card s1 hdraw
  obtain ⟨hclt, -⟩ := List.get?_eq_some.mp hcp
  have hcp1 : s1.players.get? s1.currentPlayerIndex = some cp := by
    rw [hpl1, hci1]
    exact hcp
  have h7' : 7 ≤ getUniqueNumberCount
      { cp with
        cards := cp.cards ++ [card]
        roundScore := calculateRoundScore { cp with cards := cp.cards ++ [card] } } := h7
  have key : processCard s1 s1.currentPlayerIndex card false = some
      ({ s1 with
          players := s1.players.set s1.currentPlayerIndex
            { cp with
              cards := cp.cards ++ [card]
              roundScore := calculateRoundScore { cp with cards := cp.cards ++ [card] }
              stayed := true }
          lastAction := some (cp.name ++ " achieved FLIP 7! Round ends!") },
        ⟨false, true, false⟩) := by
    unfold processCard
    rw [hcp1]
    simp [hnum, hnodup, ge_iff_le, h7']
  unfold handleHit at hr
  rw [if_neg (show ¬s.phase ≠ Phase.playing from by simp [hphase])] at hr
  simp only [hcp] at hr
  rw [if_neg (show ¬connId ≠ cp.id from by simp [hid])] at hr
  rw [if_neg (show ¬((cp.busted || cp.stayed) = true) from by simp [hb, hst])] at hr
  simp only [hdraw, key] at hr
  cases hr
  simp only
  set P7 : Player :=
    { cp with
      cards := cp.cards ++ [card]
      roundScore := calculateRoundScore { cp with cards := cp.cards ++ [card] }
      stayed := true } with hP7
  set S2 : GameState :=
    { s1 with
      players := s1.players.set s1.currentPlayerIndex P7
      lastAction := some (cp.name ++ " achieved FLIP 7! Round ends!") } with hS2
  refine ⟨?_, ?_, ?_, ?_⟩
  · rcases endRound_phase (stayAllActive S2) with h | h
    · exact Or.inl h
    · exact Or.inr h
  · intro q hq
    rw [endRound_players] at hq
    simp only [List.mem_map] at hq
    obtain ⟨q0, hq0, hq0e⟩ := hq
    rcases stayAllActive_mem S2 q0 hq0 with h | h
    · left
      rw [← hq0e, (settleScore_fields q0).2.1]
      exact h
    · right
      rw [← hq0e, (settleScore_fields q0).2.2.1]
      exact h
  · have hS2get : S2.players.get? s.currentPlayerIndex = some P7 := by
      show (s1.players.set s1.currentPlayerIndex P7).get? s.currentPlayerIndex = some P7
      rw [hpl1, hci1]
      exact List.get?_set_eq_of_lt P7 hclt
    have hstay_get : (stayAllActive S2).players.get? s.currentPlayerIndex = some P7 := by
      show (S2.players.map _).get? s.currentPlayerIndex = some P7
      rw [List.get?_map, hS2get]
      simp [hP7]
    refine ⟨settleScore P7, ?_, ?_⟩
    · rw [endRound_players, List.get?_map, hstay_get]
      rfl
    · rw [(settleScore_fields P7).2.2.1, hP7]
  · intro j q hj hq hqb hqs
    have hS2j : S2.players.get? j = some q := by
      show (s1.players.set s1.currentPlayerIndex P7).get? j = some q
      rw [hpl1, hci1, List.get?_set_ne _ _ (fun h => hj h.symm)]
      exact hq
    have hstayj : (stayAllActive S2).players.get? j
        = some { q with stayed := true, roundScore := calculateRoundScore q } := by
      show (S2.players.map _).get? j = some _
      rw [List.get?_map, hS2j]
      simp [hqb, hqs]
    refine ⟨settleScore { q with stayed := true, roundScore := calculateRoundScore q },
      ?_, ?_, ?_⟩
    · rw [endRound_players, List.get?_map, hstayj]
      rfl
    · rw [(settleScore_fields _).2.2.1]
    · rw [settleScore_not_busted _
        (show ({ q with stayed := true, roundScore := calculateRoundScore q } : Player).busted
          = false from hqb)]
      exact calculateRoundScore_congr _ _ rfl

def wC6A : Player :=
  { basePlayer "A" with cards := [cNum 1, cNum 2, cNum 3, cNum 4, cNum 5, cNum 6] }

def wSC6 : GameState :=
  { baseState with players := [wC6A, basePlayer "B"], deck := [cNum 7] }

def wSC6d : GameState := { wSC6 with deck := [] }

def wC6r : StepResult :=
  match handleHit (fun l => l) "A" wSC6 with
  | some r => r
  | none => ⟨wSC6, [], false⟩

/-- Witness for C6: player A holding six distinct numbers hits and draws a 7th
distinct number; the round ends for everyone and the other active player B is
marked stayed at their recomputed round score. -/
theorem flip7_hit_ends_round_witness :
    (wSC6.phase = Phase.playing ∧
      wSC6.players.get? wSC6.currentPlayerIndex = some wC6A ∧ "A" = wC6A.id ∧
      wC6A.busted = false ∧ wC6A.stayed = false ∧
      drawCard (fun l => l) wSC6 = some (cNum 7, wSC6d) ∧
      (cNum 7).type = CardType.number ∧
      hasNumberDuplicate wC6A (cNum 7) = false ∧
      7 ≤ getUniqueNumberCount { wC6A with cards := wC6A.cards ++ [cNum 7] } ∧
      handleHit (fun l => l) "A" wSC6 = some wC6r) ∧
    ((wC6r.state.phase = Phase.game_over ∨ wC6r.state.phase = Phase.round_end) ∧
      (∀ q ∈ wC6r.state.players, q.busted = true ∨ q.stayed = true) ∧
      (∃ p', wC6r.state.players.get? wSC6.currentPlayerIndex = some p' ∧ p'.stayed = true) ∧
      (∀ j q, j ≠ wSC6.currentPlayerIndex → wSC6.players.get? j = some q →
        q.busted = false → q.stayed = false →
        ∃ q', wC6r.state.players.get? j = some q' ∧ q'.stayed = true ∧
          q'.roundScore = calculateRoundScore q)) :=
  ⟨⟨rfl, rfl, rfl, rfl, rfl, by decide, rfl, by decide, by decide, rfl⟩,
    flip7_hit_ends_round (fun l => l) "A" wSC6 wC6A (cNum 7) wSC6d wC6r
      rfl rfl rfl rfl rfl (by decide) rfl (by decide) (by decide) rfl⟩

/-! ### C8: rejection of illegal actions -/

/-- Counterexample for C8 as stated: a restart from a connection that is not the
host (illegal: restart is host-only) is rejected silently — no error notification
is sent to the originating connection — although the state is left unmutated. -/
theorem rejection_counterexample :
    handleRestart "X" wSFr = ⟨wSFr, [], false⟩ ∧ "X" ≠ wSFr.hostId := by
  decide

/-- C8 (amended): every illegal action is rejected without mutating the game state
and without any broadcast; a not-your-turn hit or stay, a non-host start_game (or a
start with fewer than two players), a non-host new_round during round_end, and an
invalid join send exactly one error notification to the originating connection,
while a wrong-phase hit, stay, use_flip_three, use_freeze or new_round and a
non-host restart are rejected silently with no notification at all. -/
theorem illegal_actions_rejected (shuffle : List Card → List Card) (connId name : String)
    (s : GameState) :
    (s.phase ≠ Phase.playing →
      handleHit shuffle connId s = some ⟨s, [], false⟩ ∧
      handleStay connId s = some ⟨s, [], false⟩ ∧
      handleFlipThree shuffle connId s = some ⟨s, [], false⟩ ∧
      handleFreeze connId s = some ⟨s, [], false⟩) ∧
    (∀ cp, s.phase = Phase.playing → s.players.get? s.currentPlayerIndex = some cp →
      connId ≠ cp.id →
      handleHit shuffle connId s = some ⟨s, [ServerMessage.errorMsg "Not your turn"], false⟩ ∧
      handleStay connId s = some ⟨s, [ServerMessage.errorMsg "Not your turn"], false⟩) ∧
    (connId ≠ s.hostId →
      handleStartGame shuffle connId s
          = ⟨s, [ServerMessage.errorMsg "Only the host can start"], false⟩ ∧
      handleRestart connId s = ⟨s, [], false⟩) ∧
    (connId = s.hostId → s.players.length < 2 →
      handleStartGame shuffle connId s
        = ⟨s, [ServerMessage.errorMsg "Need at least 2 players"], false⟩) ∧
    (s.phase ≠ Phase.round_end → handleNewRound shuffle connId s = ⟨s, [], false⟩) ∧
    (s.phase = Phase.round_end → connId ≠ s.hostId →
      handleNewRound shuffle connId s
        = ⟨s, [ServerMessage.errorMsg "Only the host can advance"], false⟩) ∧
    (s.phase ≠ Phase.lobby → (∀ p ∈ s.players, p.name ≠ name) →
      handleJoin connId name s
        = ⟨s, [ServerMessage.errorMsg "Game already in progress"], false⟩) ∧
    (s.phase = Phase.lobby → (∃ p ∈ s.players, p.name = name) →
      handleJoin connId name s
        = ⟨s, [ServerMessage.errorMsg "Name already taken"], false⟩) := by
  refine ⟨?_, ?_, ?_, ?_, ?_, ?_, ?_, ?_⟩
  · intro hph
    refine ⟨?_, ?_, ?_, ?_⟩
    · unfold handleHit
      rw [if_pos hph]
    · unfold handleStay
      rw [if_pos hph]
    · unfold handleFlipThree
      rw [if_pos hph]
    · unfold handleFreeze
      rw [if_pos hph]
  · intro cp hph hcp hne
    constructor
    · unfold handleHit
      rw [if_neg (show ¬s.phase ≠ Phase.playing from by simp [hph])]
      simp only [hcp]
      rw [if_pos hne]
    · unfold handleStay
      rw [if_neg (show ¬s.phase ≠ Phase.playing from by simp [hph])]
      simp only [hcp]
      rw [if_pos hne]
  · intro hne
    constructor
    · unfold handleStartGame
      rw [if_pos hne]
    · unfold handleRestart
      rw [if_pos hne]
  · intro heq hlt
    unfold handleStartGame
    rw [if_neg (show ¬connId ≠ s.hostId from by simp [heq]), if_pos hlt]
  · intro hph
    unfold handleNewRound
    rw [if_pos hph]
  · intro hph hne
    unfold handleNewRound
    rw [if_neg (show ¬s.phase ≠ Phase.round_end from by simp [hph]), if_pos hne]
  · intro hph hnone
    unfold handleJoin
    rw [if_pos hph]
    have hany : (s.players.any (fun p => p.name == name)) = false := by
      rw [List.any_eq_false]
      intro p hp
      simp [hnone p hp]
    rw [hany]
    simp
  · intro hph hsome
    unfold handleJoin
    rw [if_neg (show ¬s.phase ≠ Phase.lobby from by simp [hph])]
    have hany : (s.players.any (fun p => p.name == name)) = true := by
      rw [List.any_eq_true]
      obtain ⟨p, hp, hpn⟩ := hsome
      exact ⟨p, hp, by simp [hpn]⟩
    rw [if_pos hany]

/-- Witness for the amended C8: in a concrete playing-phase state, a restart from a
non-host connection is rejected silently with no state change, and a hit from a
player who is not the current-turn player is rejected with a "Not your turn" error
sent only to that connection. -/
theorem illegal_actions_rejected_witness :
    ("X" ≠ wSFr.hostId ∧
      handleStartGame (fun l => l) "X" wSFr
          = ⟨wSFr, [ServerMessage.errorMsg "Only the host can start"], false⟩ ∧
      handleRestart "X" wSFr = ⟨wSFr, [], false⟩) ∧
    (wSFr.phase = Phase.playing ∧
      wSFr.players.get? wSFr.currentPlayerIndex = some wFrA ∧ "B" ≠ wFrA.id ∧
      handleHit (fun l => l) "B" wSFr
          = some ⟨wSFr, [ServerMessage.errorMsg "Not your turn"], false⟩ ∧
      handleStay "B" wSFr
          = some ⟨wSFr, [ServerMessage.errorMsg "Not your turn"], false⟩) :=
  ⟨⟨by decide,
      ((illegal_actions_rejected (fun l => l) "X" "n" wSFr).2.2.1 (by decide)).1,
      ((illegal_actions_rejected (fun l => l) "X" "n" wSFr).2.2.1 (by decide)).2⟩,
    ⟨rfl, rfl, by decide,
      ((illegal_actions_rejected (fun l => l) "B" "n" wSFr).2.1 wFrA rfl rfl (by decide)).1,
      ((illegal_actions_rejected (fun l => l) "B" "n" wSFr).2.1 wFrA rfl rfl (by decide)).2⟩⟩

/-! ### C1: deck conservation -/

theorem handCards_cons (p : Player) (ps : List Player) :
    handCards (p :: ps) = (p.cards : Multiset Card) + handCards ps := by
  simp [handCards]

theorem handCards_zero (ps : List Player) (h : ∀ p ∈ ps, p.cards = []) :
    handCards ps = 0 := by
  induction ps with
  | nil => rfl
  | cons p ps ih =>
    rw [handCards_cons, h p (List.mem_cons_self p ps), ih (fun q hq => h q (List.mem_cons_of_mem p hq))]
    rfl

theorem handCards_map_cards_eq (f : Player → Player) (hf : ∀ p, (f p).cards = p.cards)
    (ps : List Player) : handCards (ps.map f) = handCards ps := by
  induction ps with
  | nil => rfl
  | cons p ps ih => rw [List.map_cons, handCards_cons, handCards_cons, hf, ih]

theorem handCards_map_clear (f : Player → Player) (hf : ∀ p, (f p).cards = [])
    (ps : List Player) : handCards (ps.map f) = 0 := by
  induction ps with
  | nil => rfl
  | cons p ps ih =>
    rw [List.map_cons, handCards_cons, hf, ih]
    rfl

theorem handCards_append_one (ps : List Player) (p : Player) :
    handCards (ps ++ [p]) = handCards ps + (p.cards : Multiset Card) := by
  simp [handCards]

theorem handCards_updateFirst (pred : Player → Bool) (f : Player → Player)
    (hf : ∀ p, (f p).cards = p.cards) (ps : List Player) :
    handCards (updateFirst pred f ps) = handCards ps := by
  induction ps with
  | nil => rfl
  | cons p ps ih =>
    unfold updateFirst
    split
    · rw [handCards_cons, handCards_cons, hf]
    · rw [handCards_cons, handCards_cons, ih]

theorem coe_flatten_handCards (ps : List Player) :
    (((ps.map (fun p => p.cards)).flatten : List Card) : Multiset Card) = handCards ps := by
  induction ps with
  | nil => rfl
  | cons p ps ih =>
    rw [List.map_cons, List.flatten_cons, handCards_cons, ← ih, ← Multiset.coe_add]

theorem handCards_set_snoc (ps : List Player) (i : Nat) (p p' : Player) (c : Card)
    (h : ps.get? i = some p) (hc : p'.cards = p.cards ++ [c]) :
    handCards (ps.set i p') = handCards ps + {c} := by
  induction ps generalizing i with
  | nil => cases h
  | cons q qs ih =>
    cases i with
    | zero =>
      obtain rfl : q = p := by simpa using h
      rw [List.set_cons_zero, handCards_cons, handCards_cons, hc, ← Multiset.coe_add,
        Multiset.coe_singleton]
      abel
    | succ n =>
      have h' : qs.get? n = some p := by simpa using h
      rw [List.set_cons_succ, handCards_cons, handCards_cons, ih n h']
      abel

theorem coe_filter_sc (l : List Card) :
    ((l.filter (fun c => c.type != CardType.second_chance) : List Card) : Multiset Card)
      + ↑(l.filter (fun c => c.type == CardType.second_chance)) = ↑l := by
  induction l with
  | nil => rfl
  | cons c cs ih =>
    cases hc : (c.type == CardType.second_chance) with
    | true =>
      have hne : (c.type != CardType.second_chance) = false := by simp [bne, hc]
      rw [List.filter_cons_of_neg (by simp [hne]), List.filter_cons_of_pos (by simp [hc]),
        ← Multiset.cons_coe, Multiset.add_cons, ih, Multiset.cons_coe]
    | false =>
      have hne : (c.type != CardType.second_chance) = true := by simp [bne, hc]
      rw [List.filter_cons_of_pos (by simp [hne]), List.filter_cons_of_neg (by simp [hc]),
        ← Multiset.cons_coe, Multiset.cons_add, ih, Multiset.cons_coe]

theorem handCards_set_filter_sc (ps : List Player) (i : Nat) (p p' : Player)
    (h : ps.get? i = some p)
    (hc : p'.cards = p.cards.filter (fun c => c.type != CardType.second_chance)) :
    handCards (ps.set i p')
      + ↑(p.cards.filter (fun c => c.type == CardType.second_chance)) = handCards ps := by
  induction ps generalizing i with
  | nil => cases h
  | cons q qs ih =>
    cases i with
    | zero =>
      have hqp : q = p := by simpa using h
      rw [List.set_cons_zero, handCards_cons, handCards_cons, hqp, hc,
        ← coe_filter_sc p.cards]
      abel
    | succ n =>
      have h' : qs.get? n = some p := by simpa using h
      rw [List.set_cons_succ, handCards_cons, handCards_cons, ← ih n h']
      abel

theorem handCards_set_same (ps : List Player) (i : Nat) (p p' : Player)
    (h : ps.get? i = some p) (hc : p'.cards = p.cards) :
    handCards (ps.set i p') = handCards ps := by
  induction ps generalizing i with
  | nil => cases h
  | cons q qs ih =>
    cases i with
    | zero =>
      obtain rfl : q = p := by simpa using h
      rw [List.set_cons_zero, handCards_cons, handCards_cons, hc]
    | succ n =>
      have h' : qs.get? n = some p := by simpa using h
      rw [List.set_cons_succ, handCards_cons, handCards_cons, ih n h']

theorem handCards_card (ps : List Player) :
    Multiset.card (handCards ps) = (ps.map (fun p => p.cards.length)).sum := by
  induction ps with
  | nil => rfl
  | cons p ps ih =>
    rw [handCards_cons, Multiset.card_add, Multiset.coe_card, List.map_cons, List.sum_cons, ih]

theorem getLast?_multiset (l : List Card) (a : Card) (h : l.getLast? = some a) :
    ((l.dropLast : List Card) : Multiset Card) + {a} = ↑l := by
  have hl := List.dropLast_append_getLast? a h
  rw [← Multiset.coe_singleton, Multiset.coe_add, hl]

theorem drawCard_conserve (shuffle : List Card → List Card)
    (hsh : ∀ l : List Card, ((shuffle l : List Card) : Multiset Card) = ↑l)
    (s : GameState) (card : Card) (s1 : GameState)
    (h : drawCard shuffle s = some (card, s1)) :
    allCards s1 + {card} = allCards s ∧ s1.roundNumber = s.roundNumber ∧
    s1.players = s.players ∧ s1.phase = s.phase := by
  unfold drawCard at h
  dsimp only at h
  split_ifs at h with hdeck
  · split at h
    · next c heq =>
      cases h
      refine ⟨?_, rfl, rfl, rfl⟩
      unfold allCards
      dsimp only
      have hd : s.deck = [] := List.length_eq_zero.mp hdeck
      have h2 := getLast?_multiset (shuffle s.discard) card heq
      rw [hsh] at h2
      rw [hd, ← h2]
      simp only [Multiset.coe_nil]
      abel
    · cases h
  · split at h
    · next c heq =>
      cases h
      refine ⟨?_, rfl, rfl, rfl⟩
      unfold allCards
      dsimp only
      have h2 := getLast?_multiset s.deck card heq
      rw [← h2]
      abel
    · cases h

theorem sc_branch_conserve (deck discard : List Card) (ps : List Player) (i : Nat)
    (p p' : Player) (card : Card) (hp : ps.get? i = some p)
    (hc : p'.cards = p.cards.filter (fun c => c.type != CardType.second_chance)) :
    ((deck : Multiset Card))
        + ↑(discard ++ [card] ++ p.cards.filter (fun c => c.type == CardType.second_chance))
        + handCards (ps.set i p')
      = ↑deck + ↑discard + handCards ps + {card} := by
  rw [← Multiset.coe_add, ← Multiset.coe_add, Multiset.coe_singleton,
    ← handCards_set_filter_sc ps i p p' hp hc]
  abel

theorem snoc_branch_conserve (deck discard : List Card) (ps : List Player) (i : Nat)
    (p p' : Player) (card : Card) (hp : ps.get? i = some p)
    (hc : p'.cards = p.cards ++ [card]) :
    ((deck : Multiset Card)) + ↑discard + handCards (ps.set i p')
      = ↑deck + ↑discard + handCards ps + {card} := by
  rw [handCards_set_snoc ps i p p' card hp hc]
  abel

theorem processCard_conserve (s : GameState) (i : Nat) (card : Card) (ft : Bool)
    (s' : GameState) (r : ProcessResult) (h : processCard s i card ft = some (s', r)) :
    allCards s' = allCards s + {card} ∧ s'.roundNumber = s.roundNumber := by
  unfold processCard at h
  split at h
  · cases h
  · next p hp =>
    dsimp only at h
    split_ifs at h <;> cases h <;> refine ⟨?_, rfl⟩ <;> unfold allCards <;> dsimp only <;>
      first
        | exact sc_branch_conserve s.deck s.discard s.players i p _ card hp rfl
        | exact snoc_branch_conserve s.deck s.discard s.players i p _ card hp rfl

theorem endRound_piles (t : GameState) :
    (endRound t).deck = t.deck ∧ (endRound t).discard = t.discard ∧
    (endRound t).roundNumber = t.roundNumber := by
  simp only [endRound]
  split
  · split <;> exact ⟨rfl, rfl, rfl⟩
  · exact ⟨rfl, rfl, rfl⟩

theorem allCards_endRound (t : GameState) : allCards (endRound t) = allCards t := by
  obtain ⟨h1, h2, -⟩ := endRound_piles t
  unfold allCards
  rw [h1, h2, endRound_players,
    handCards_map_cards_eq settleScore (fun p => (settleScore_fields p).1)]

theorem allCards_advanceTurn (t : GameState) :
    allCards (advanceTurn t) = allCards t ∧ (advanceTurn t).roundNumber = t.roundNumber := by
  unfold advanceTurn
  split
  · exact ⟨allCards_endRound t, (endRound_piles t).2.2⟩
  · split
    · exact ⟨allCards_endRound t, (endRound_piles t).2.2⟩
    · exact ⟨rfl, rfl⟩

theorem allCards_stayAllActive (t : GameState) :
    allCards (stayAllActive t) = allCards t ∧ (stayAllActive t).roundNumber = t.roundNumber := by
  refine ⟨?_, rfl⟩
  unfold allCards stayAllActive
  dsimp only
  have hf : ∀ p : Player,
      ((if !p.busted && !p.stayed then
          { p with stayed := true, roundScore := calculateRoundScore p }
        else p) : Player).cards = p.cards := by
    intro p
    split <;> rfl
  rw [handCards_map_cards_eq _ hf]

theorem allCards_startNewRound (shuffle : List Card → List Card) (t : GameState)
    (h1 : 1 ≤ t.roundNumber) :
    allCards (startNewRound shuffle t) = allCards t ∧
    (startNewRound shuffle t).roundNumber = t.roundNumber + 1 := by
  unfold startNewRound
  dsimp only
  rw [if_neg (show ¬(t.roundNumber + 1 = 1) from by omega)]
  refine ⟨?_, rfl⟩
  unfold allCards
  dsimp only
  rw [handCards_map_clear _ (fun p => rfl), ← Multiset.coe_add, coe_flatten_handCards]
  abel

theorem allCards_startNewRound_base (shuffle : List Card → List Card)
    (hsh : ∀ l : List Card, ((shuffle l : List Card) : Multiset Card) = ↑l)
    (t : GameState) (h0 : t.roundNumber = 0) (hhands : ∀ p ∈ t.players, p.cards = []) :
    allCards (startNewRound shuffle t) = (createDeck : Multiset Card) ∧
    (startNewRound shuffle t).roundNumber = 1 := by
  unfold startNewRound
  dsimp only
  rw [h0]
  rw [if_pos rfl]
  refine ⟨?_, rfl⟩
  unfold allCards
  dsimp only
  rw [handCards_map_clear _ (fun p => rfl), List.nil_append, coe_flatten_handCards,
    handCards_zero t.players hhands, hsh]
  simp

theorem flipThreeLoop_conserve (shuffle : List Card → List Card)
    (hsh : ∀ l : List Card, ((shuffle l : List Card) : Multiset Card) = ↑l) :
    ∀ (n : Nat) (t : GameState) (i : Nat) (t' : GameState) (f7 : Bool),
      flipThreeLoop shuffle t i n = some (t', f7) →
      allCards t' = allCards t ∧ t'.roundNumber = t.roundNumber := by
  intro n
  induction n with
  | zero =>
    intro t i t' f7 h
    unfold flipThreeLoop at h
    cases h
    exact ⟨rfl, rfl⟩
  | succ n ih =>
    intro t i t' f7 h
    unfold flipThreeLoop at h
    split at h
    · cases h
    · next card t1 hdraw =>
      split at h
      · cases h
      · next t2 result hproc =>
        obtain ⟨hd1, hd2, -, -⟩ := drawCard_conserve shuffle hsh t card t1 hdraw
        obtain ⟨hp1, hp2⟩ := processCard_conserve t1 i card true t2 result hproc
        have hall : allCards t2 = allCards t := by
          rw [hp1]
          exact hd1
        have hrn : t2.roundNumber = t.roundNumber := hp2.trans hd2
        split at h
        · cases h
          exact ⟨hall, hrn⟩
        · dsimp only at h
          split at h
          · cases h
            exact ⟨hall, hrn⟩
          · obtain ⟨ha, hb⟩ := ih t2 i t' f7 h
            exact ⟨ha.trans hall, hb.trans hrn⟩

theorem handleJoin_conserve (connId name : String) (s : GameState) :
    allCards (handleJoin connId name s).state = allCards s ∧
    (handleJoin connId name s).state.roundNumber = s.roundNumber := by
  unfold handleJoin
  dsimp only
  split_ifs <;> dsimp only <;>
    first
      | exact ⟨rfl, rfl⟩
      | (refine ⟨?_, rfl⟩
         unfold allCards
         dsimp only
         first
           | rw [handCards_updateFirst (fun p => p.name == name)
               (fun p => { p with id := connId, connected := true }) (fun p => rfl)]
           | (rw [handCards_append_one]
              simp))

/-- Conservation of the card multiset and the round counter across one accepted
action other than restart. -/
theorem applyAction_conserve (shuffle : List Card → List Card)
    (hsh : ∀ l : List Card, ((shuffle l : List Card) : Multiset Card) = ↑l)
    (connId : String) (a : Action) (s : GameState) (r : StepResult)
    (ha : a ≠ Action.restart)
    (hall : allCards s = (createDeck : Multiset Card)) (hrn : 1 ≤ s.roundNumber)
    (happ : applyAction shuffle connId a s = some r) :
    allCards r.state = (createDeck : Multiset Card) ∧ 1 ≤ r.state.roundNumber := by
  cases a with
  | join name =>
    simp only [applyAction] at happ
    cases happ
    obtain ⟨h1, h2⟩ := handleJoin_conserve connId name s
    refine ⟨h1.trans hall, ?_⟩
    rw [h2]
    exact hrn
  | start_game =>
    simp only [applyAction] at happ
    cases happ
    unfold handleStartGame
    split_ifs
    · exact ⟨hall, hrn⟩
    · exact ⟨hall, hrn⟩
    · obtain ⟨h1, h2⟩ := allCards_startNewRound shuffle s hrn
      refine ⟨h1.trans hall, ?_⟩
      rw [h2]
      omega
  | hit =>
    simp only [applyAction] at happ
    unfold handleHit at happ
    split at happ
    · cases happ
      exact ⟨hall, hrn⟩
    · split at happ
      · cases happ
      · split at happ
        · cases happ
          exact ⟨hall, hrn⟩
        · split at happ
          · cases happ
            exact ⟨hall, hrn⟩
          · split at happ
            · cases happ
            · next card s1 hdraw =>
              split at happ
              · cases happ
              · next s2 result hproc =>
                obtain ⟨hd1, hd2, -, -⟩ := drawCard_conserve shuffle hsh s card s1 hdraw
                obtain ⟨hp1, hp2⟩ := processCard_conserve s1 _ card false s2 result hproc
                have hall2 : allCards s2 = (createDeck : Multiset Card) := by
                  rw [hp1, hd1, hall]
                have hrn2 : 1 ≤ s2.roundNumber := by
                  rw [hp2, hd2]
                  exact hrn
                split at happ
                · cases happ
                  refine ⟨?_, ?_⟩
                  · rw [allCards_endRound, (allCards_stayAllActive s2).1, hall2]
                  · rw [(endRound_piles _).2.2]
                    exact hrn2
                · cases happ
                  refine ⟨?_, ?_⟩
                  · rw [(allCards_advanceTurn s2).1, hall2]
                  · rw [(allCards_advanceTurn s2).2]
                    exact hrn2
  | stay =>
    simp only [applyAction] at happ
    unfold handleStay at happ
    split at happ
    · cases happ
      exact ⟨hall, hrn⟩
    · split at happ
      · cases happ
      · next cp hcp =>
        split at happ
        · cases happ
          exact ⟨hall, hrn⟩
        · split at happ
          · cases happ
            exact ⟨hall, hrn⟩
          · dsimp only at happ
            cases happ
            have hS : allCards ({ s with
                players := s.players.set s.currentPlayerIndex
                  { cp with
                    stayed := true
                    roundScore := calculateRoundScore { cp with stayed := true } }
                lastAction := some ({ cp with stayed := true }.name ++ " stayed with "
                  ++ toString (calculateRoundScore { cp with stayed := true })
                  ++ " points") } : GameState) = (createDeck : Multiset Card) := by
              unfold allCards
              dsimp only
              rw [handCards_set_same s.players s.currentPlayerIndex cp
                { cp with
                  stayed := true
                  roundScore := calculateRoundScore { cp with stayed := true } } hcp rfl]
              exact hall
            refine ⟨?_, ?_⟩
            · rw [(allCards_advanceTurn _).1]
              exact hS
            · rw [(allCards_advanceTurn _).2]
              exact hrn
  | use_flip_three =>
    simp only [applyAction] at happ
    unfold handleFlipThree at happ
    split at happ
    · cases happ
      exact ⟨hall, hrn⟩
    · split at happ
      · cases happ
        exact ⟨hall, hrn⟩
      · split at happ
        · cases happ
          exact ⟨hall, hrn⟩
        · next p hp =>
          split at happ
          · cases happ
            exact ⟨hall, hrn⟩
          · dsimp only at happ
            split at happ
            · cases happ
            · next t' f7 hloop =>
              obtain ⟨hl1, hl2⟩ := flipThreeLoop_conserve shuffle hsh 3 _ _ t' f7 hloop
              have hall2 : allCards t' = (createDeck : Multiset Card) := by
                rw [hl1]
                exact hall
              have hrn2 : 1 ≤ t'.roundNumber := by
                rw [hl2]
                exact hrn
              split at happ
              · cases happ
                refine ⟨?_, ?_⟩
                · rw [allCards_endRound, (allCards_stayAllActive t').1, hall2]
                · rw [(endRound_piles _).2.2]
                  exact hrn2
              · split at happ
                · cases happ
                  refine ⟨?_, ?_⟩
                  · rw [allCards_endRound, hall2]
                  · rw [(endRound_piles _).2.2]
                    exact hrn2
                · cases happ
                  exact ⟨hall2, hrn2⟩
  | use_freeze =>
    simp only [applyAction] at happ
    unfold handleFreeze at happ
    split at happ
    · cases happ
      exact ⟨hall, hrn⟩
    · split at happ
      · cases happ
        exact ⟨hall, hrn⟩
      · next i hfind =>
        split at happ
        · cases happ
          exact ⟨hall, hrn⟩
        · next p hp =>
          split at happ
          · cases happ
            exact ⟨hall, hrn⟩
          · dsimp only at happ
            have hS : allCards ({ s with
                players := s.players.set i
                  { p with
                    stayed := true
                    roundScore := calculateRoundScore { p with stayed := true } }
                lastAction := some ({ p with stayed := true }.name
                  ++ " was frozen! They stay with "
                  ++ toString (calculateRoundScore { p with stayed := true })
                  ++ " points.") } : GameState) = (createDeck : Multiset Card) := by
              unfold allCards
              dsimp only
              rw [handCards_set_same s.players i p
                { p with
                  stayed := true
                  roundScore := calculateRoundScore { p with stayed := true } } hp rfl]
              exact hall
            split at happ
            · cases happ
            · split at happ
              · cases happ
                refine ⟨?_, ?_⟩
                · rw [(allCards_advanceTurn _).1]
                  exact hS
                · rw [(allCards_advanceTurn _).2]
                  exact hrn
              · split at happ
                · cases happ
                  refine ⟨?_, ?_⟩
                  · rw [allCards_endRound]
                    exact hS
                  · rw [(endRound_piles _).2.2]
                    exact hrn
                · cases happ
                  exact ⟨hS, hrn⟩
  | new_round =>
    simp only [applyAction] at happ
    cases happ
    unfold handleNewRound
    split_ifs
    · exact ⟨hall, hrn⟩
    · exact ⟨hall, hrn⟩
    · obtain ⟨h1, h2⟩ := allCards_startNewRound shuffle s hrn
      refine ⟨h1.trans hall, ?_⟩
      rw [h2]
      omega
  | restart => exact absurd rfl ha

/-- Every state reachable after the game started carries the full fixed deck. -/
theorem reachable_conserve (shuffle : List Card → List Card)
    (hsh : ∀ l : List Card, List.Perm (shuffle l) l)
    (s : GameState) (h : Reachable shuffle s) :
    allCards s = (createDeck : Multiset Card) ∧ 1 ≤ s.roundNumber := by
  have hshM : ∀ l : List Card, ((shuffle l : List Card) : Multiset Card) = ↑l :=
    fun l => Multiset.coe_eq_coe.mpr (hsh l)
  induction h with
  | start s0 h1 h2 h3 =>
    obtain ⟨ha, hb⟩ := allCards_startNewRound_base shuffle hshM s0 h3 h2
    refine ⟨ha, ?_⟩
    rw [hb]
  | step s0 connId a r hs ha happ ih =>
    exact applyAction_conserve shuffle hshM connId a s0 r ha ih.1 ih.2 happ

/-- C1: in every state reachable after the game has started (with no intervening
restart, under any shuffle that permutes its input), the draw pile, the discard pile
and all hands together hold exactly 95 cards, and their multiset is exactly the
fixed deck built by `createDeck` — no card is duplicated or lost by any action. -/
theorem deck_conservation (shuffle : List Card → List Card)
    (hsh : ∀ l : List Card, List.Perm (shuffle l) l)
    (s : GameState) (h : Reachable shuffle s) :
    cardCount s = 95 ∧ allCards s = (createDeck : Multiset Card) := by
  obtain ⟨ha, -⟩ := reachable_conserve shuffle hsh s h
  refine ⟨?_, ha⟩
  have hc := congrArg Multiset.card ha
  unfold allCards at hc
  rw [Multiset.card_add, Multiset.card_add, Multiset.coe_card, Multiset.coe_card,
    handCards_card, Multiset.coe_card] at hc
  exact hc.trans (by decide)

def wSLobby : GameState :=
  { createInitialState "A" with players := [basePlayer "A", basePlayer "B"] }

/-- Witness for C1: the state right after starting round one from a two-player lobby
holds exactly the 95-card deck. -/
theorem deck_conservation_witness :
    (∀ l : List Card, List.Perm ((fun l => l) l) l) ∧
    (cardCount (startNewRound (fun l => l) wSLobby) = 95 ∧
      allCards (startNewRound (fun l => l) wSLobby) = (createDeck : Multiset Card)) :=
  ⟨fun l => List.Perm.refl l,
    deck_conservation (fun l => l) (fun l => List.Perm.refl l) _
      (Reachable.start wSLobby rfl (by decide) rfl)⟩

end Flip7
